import Mathlib

/-!
Verification development for the dino-runner game (src/script.js, canonical
variant; src/unnamed/part_000 holds an older variant and a high-speed-easing
variant).  JavaScript numbers are modelled as rationals, `Math.floor` as the
integer floor, and `Math.random()` as an injected stream `rng : Nat -> Rat`
of draws in `[0,1)`, consumed left to right exactly in the order the source
calls `Math.random()`.
-/

set_option maxRecDepth 100000
set_option linter.constructorNameAsVariable false
set_option linter.unusedVariables false

namespace Dino

/-- Tuning constants of src/script.js lines 51, 62-72, 90-95. -/
def baseSpeed : ℚ := 4

def GAP_BASE : ℚ := 500

def GAP_REDUCTION_PER_SPEED : ℚ := 45

def GAP_RANDOM_JITTER : ℚ := 160

def GAP_MIN : ℚ := 160

def GAP_MAX : ℚ := 2500

def SPEED_LEVEL : ℚ := 1

def MAX_EXTRA_OBSTACLES : ℤ := 8

def BASE_OBSTACLE_BUFFER : ℤ := 4

def INITIAL_EXTRA_OBSTACLES : ℤ := 6

def dinoW : ℚ := 40

def dinoH : ℚ := 40

def jumpForce : ℚ := -15

/-- Gap computation, src/script.js lines 74-81.  `r` is the `Math.random()`
draw used for the jitter. -/
def computeGapForSpeed (speed r : ℚ) : ℚ :=
  let reduction := max 0 (speed - baseSpeed) * GAP_REDUCTION_PER_SPEED
  let jitter : ℚ := (⌊(r - 1/2) * GAP_RANDOM_JITTER⌋ : ℤ)
  let gap := GAP_BASE - reduction + jitter
  max GAP_MIN (min GAP_MAX ((⌊gap⌋ : ℤ) : ℚ))

/-- Extra-obstacle count, src/script.js lines 83-86. -/
def computeExtraObstacles (speed : ℚ) : ℤ :=
  let raw := ⌊max 0 (speed - baseSpeed) / SPEED_LEVEL⌋
  min MAX_EXTRA_OBSTACLES (max 0 raw)

/-- Tuning constants of the high-speed-easing variant,
src/unnamed/part_000 lines 286-312 (suffix E distinguishes them). -/
def easingBaseSpeed : ℚ := 3

def GAP_BASE_E : ℚ := 600

def GAP_PER_SPEED_E : ℚ := 150

def GAP_RANDOM_JITTER_E : ℚ := 200

def GAP_MIN_E : ℚ := 300

def GAP_MAX_E : ℚ := 3000

def HIGH_SPEED_THRESHOLD : ℚ := 12

def HIGH_SPEED_GAP_MULTIPLIER : ℚ := 1/5

def HIGH_SPEED_REDUCTION_RATE : ℚ := 2

def SPEED_LEVEL_E : ℚ := 1

def MAX_EXTRA_OBSTACLES_E : ℤ := 6

/-- Gap computation of the easing variant, src/unnamed/part_000
lines 314-329. -/
def computeGapForSpeedEasing (speed r : ℚ) : ℚ :=
  let extra := max 0 (speed - easingBaseSpeed) * GAP_PER_SPEED_E
  let jitter : ℚ := (⌊r * GAP_RANDOM_JITTER_E⌋ : ℤ)
  let gap := GAP_BASE_E + extra + jitter
  let gap2 :=
    if HIGH_SPEED_THRESHOLD < speed then
      let over := speed - HIGH_SPEED_THRESHOLD
      let mult := 1 + min 1 (over / HIGH_SPEED_THRESHOLD * HIGH_SPEED_GAP_MULTIPLIER)
      ((⌊gap * mult⌋ : ℤ) : ℚ)
    else gap
  max GAP_MIN_E (min GAP_MAX_E gap2)

/-- Extra-obstacle count of the easing variant, src/unnamed/part_000
lines 331-341. -/
def computeExtraObstaclesEasing (speed : ℚ) : ℤ :=
  let raw := ⌊max 0 (speed - easingBaseSpeed) / SPEED_LEVEL_E⌋
  if HIGH_SPEED_THRESHOLD < speed then
    let overUnits := speed - HIGH_SPEED_THRESHOLD
    let reduceBy := ⌊overUnits / HIGH_SPEED_REDUCTION_RATE⌋
    let adjusted := max 0 (raw - reduceBy)
    min MAX_EXTRA_OBSTACLES_E adjusted
  else
    min MAX_EXTRA_OBSTACLES_E raw

/-- Rendering of the spec formula for the extra-obstacle count:
`floor((speed - baseline) / speedLevelStep)` clamped to `[0, MAX_EXTRA]`. -/
def specExtraFormula (speed : ℚ) : ℤ :=
  min MAX_EXTRA_OBSTACLES (max 0 ⌊(speed - baseSpeed) / SPEED_LEVEL⌋)

/-- Obstacle record: src/script.js lines 134-147 (world x fixed at creation,
width and height randomized, y derived from ground level). -/
structure Obstacle where
  w : ℚ
  h : ℚ
  worldX : ℚ
  y : ℚ
deriving DecidableEq, Repr

/-- Obstacle constructor, src/script.js lines 135-140; consumes three draws:
branch pick, width, height. -/
def mkObstacle (worldX groundY r1 r2 r3 : ℚ) : Obstacle :=
  let w : ℚ := if (3 : ℚ)/5 < r1 then 30 + ((⌊r2 * 30⌋ : ℤ) : ℚ) else 20 + ((⌊r2 * 15⌋ : ℤ) : ℚ)
  let h : ℚ := 20 + ((⌊r3 * 30⌋ : ℤ) : ℚ)
  { w := w, h := h, worldX := worldX, y := groundY - h }

/-- Whole-game state: module-level variables of src/script.js plus the dino
record and the obstacle array.  `rng`/`rngIdx` model the Math.random stream;
`groundY` is the (fixed-viewport) ground line `CSS_H() - groundHeight`. -/
structure GameState where
  gameSpeed : ℚ
  gravity : ℚ
  frame : ℕ
  score : ℚ
  running : Bool
  isPaused : Bool
  godMode : Bool
  dinoX : ℚ
  dinoY : ℚ
  dinoVy : ℚ
  dinoGrounded : Bool
  obstacles : List Obstacle
  groundY : ℚ
  rng : ℕ → ℚ
  rngIdx : ℕ

/-- Validity of the injected random stream: every draw lies in `[0,1)`,
as `Math.random()` guarantees. -/
def rngOK (f : ℕ → ℚ) : Prop := ∀ n, 0 ≤ f n ∧ f n < 1

/-- AABB collision test, src/script.js lines 167-172, with the dino as the
first box. -/
def collides (s : GameState) (o : Obstacle) : Bool :=
  decide (s.dinoX < o.worldX + o.w) && decide (o.worldX < s.dinoX + dinoW) &&
  decide (s.dinoY < o.y + o.h) && decide (o.y < s.dinoY + dinoH)

/-- Spec-side notion for C8: two half-open-style interval overlaps with
strict inequalities at both ends. -/
def intervalsIntersect (lo1 len1 lo2 len2 : ℚ) : Prop :=
  lo1 < lo2 + len2 ∧ lo2 < lo1 + len1

/-- Floor of `r * m` lies in `[0, m-1]` for a draw `r` in `[0,1)` and a
positive integer bound `m`. -/
theorem floor_mul_bounds (r : ℚ) (m : ℤ) (h0 : 0 ≤ r) (h1 : r < 1) (hm : 0 < m) :
    (0 : ℤ) ≤ ⌊r * (m : ℚ)⌋ ∧ ⌊r * (m : ℚ)⌋ ≤ m - 1 := by
  have hmq : (0 : ℚ) < (m : ℚ) := by exact_mod_cast hm
  constructor
  · apply Int.floor_nonneg.mpr
    positivity
  · have hlt : r * (m : ℚ) < (m : ℚ) := by
      calc r * (m : ℚ) < 1 * (m : ℚ) := mul_lt_mul_of_pos_right h1 hmq
      _ = (m : ℚ) := one_mul _
    have : ⌊r * (m : ℚ)⌋ < m := Int.floor_lt.mpr (by exact_mod_cast hlt)
    omega

/-- C3: for every speed at or above the baseline and every random draw, the
gap computation returns a value in the closed interval `[GAP_MIN, GAP_MAX]`
— in both the canonical variant and the high-speed-easing variant. -/
theorem C3_gap_in_range (speed r : ℚ) :
    (baseSpeed ≤ speed →
      GAP_MIN ≤ computeGapForSpeed speed r ∧ computeGapForSpeed speed r ≤ GAP_MAX) ∧
    (easingBaseSpeed ≤ speed →
      GAP_MIN_E ≤ computeGapForSpeedEasing speed r ∧
        computeGapForSpeedEasing speed r ≤ GAP_MAX_E) := by
  constructor
  · intro _
    constructor
    · exact le_max_left _ _
    · apply max_le
      · unfold GAP_MIN GAP_MAX; norm_num
      · exact min_le_left _ _
  · intro _
    constructor
    · exact le_max_left _ _
    · apply max_le
      · unfold GAP_MIN_E GAP_MAX_E; norm_num
      · exact min_le_left _ _

/-- Witness for C3 at speed 5 with draw 1/2. -/
theorem C3_gap_in_range_witness :
    ((baseSpeed ≤ (5 : ℚ)) ∧ (easingBaseSpeed ≤ (5 : ℚ))) ∧
    (GAP_MIN ≤ computeGapForSpeed 5 (1/2) ∧ computeGapForSpeed 5 (1/2) ≤ GAP_MAX) ∧
    (GAP_MIN_E ≤ computeGapForSpeedEasing 5 (1/2) ∧
      computeGapForSpeedEasing 5 (1/2) ≤ GAP_MAX_E) :=
  ⟨⟨by decide, by decide⟩,
   (C3_gap_in_range 5 (1/2)).1 (by decide),
   (C3_gap_in_range 5 (1/2)).2 (by decide)⟩

/-- Monotonicity core for C4: the clamped floor formula is monotone. -/
theorem extra_mono (s1 s2 : ℚ) (h : s1 ≤ s2) :
    computeExtraObstacles s1 ≤ computeExtraObstacles s2 := by
  unfold computeExtraObstacles
  apply min_le_min (le_refl _)
  apply max_le_max (le_refl _)
  apply Int.floor_le_floor
  apply div_le_div_of_nonneg_right ?_ ?_ |>.trans (le_refl _) |>.trans (le_refl _)
  · exact max_le_max (le_refl _) (by linarith)
  · unfold SPEED_LEVEL; norm_num

/-- C4: the extra-obstacle count is a non-negative integer bounded by
MAX_EXTRA_OBSTACLES, equals the spec's clamped floor formula, and is
monotone in the speed (everywhere for the canonical variant, below the
easing threshold for the easing variant, which is bounded by its own cap). -/
theorem C4_extra_obstacles (s s1 s2 : ℚ) :
    (0 ≤ computeExtraObstacles s ∧ computeExtraObstacles s ≤ MAX_EXTRA_OBSTACLES) ∧
    computeExtraObstacles s = specExtraFormula s ∧
    (s1 ≤ s2 → computeExtraObstacles s1 ≤ computeExtraObstacles s2) ∧
    (0 ≤ computeExtraObstaclesEasing s ∧
      computeExtraObstaclesEasing s ≤ MAX_EXTRA_OBSTACLES_E) ∧
    (s < HIGH_SPEED_THRESHOLD →
      computeExtraObstaclesEasing s =
        min MAX_EXTRA_OBSTACLES_E (max 0 ⌊(s - easingBaseSpeed) / SPEED_LEVEL_E⌋)) ∧
    (s1 ≤ s2 → s2 < HIGH_SPEED_THRESHOLD →
      computeExtraObstaclesEasing s1 ≤ computeExtraObstaclesEasing s2) := by
  refine ⟨⟨?_, ?_⟩, ?_, fun h => extra_mono s1 s2 h, ⟨?_, ?_⟩, ?_, ?_⟩
  · unfold computeExtraObstacles MAX_EXTRA_OBSTACLES
    simp only [le_min_iff]
    exact ⟨by norm_num, le_max_left _ _⟩
  · exact min_le_left _ _
  · unfold computeExtraObstacles specExtraFormula
    rcases le_total s baseSpeed with hle | hle
    · have h1 : max 0 (s - baseSpeed) = 0 := max_eq_left (by linarith)
      have h2 : ⌊(s - baseSpeed) / SPEED_LEVEL⌋ ≤ 0 := by
        apply Int.floor_nonpos
        apply div_nonpos_of_nonpos_of_nonneg (by linarith)
        unfold SPEED_LEVEL; norm_num
      rw [h1]
      have h3 : max (0 : ℤ) ⌊(s - baseSpeed) / SPEED_LEVEL⌋ = 0 := max_eq_left h2
      rw [h3]
      norm_num
    · have h1 : max 0 (s - baseSpeed) = s - baseSpeed := max_eq_right (by linarith)
      rw [h1]
  · unfold computeExtraObstaclesEasing
    have hraw : (0 : ℤ) ≤ ⌊max 0 (s - easingBaseSpeed) / SPEED_LEVEL_E⌋ := by
      apply Int.floor_nonneg.mpr
      apply div_nonneg (le_max_left _ _)
      unfold SPEED_LEVEL_E; norm_num
    split
    · simp only [le_min_iff]
      exact ⟨by unfold MAX_EXTRA_OBSTACLES_E; norm_num, le_max_left _ _⟩
    · simp only [le_min_iff]
      exact ⟨by unfold MAX_EXTRA_OBSTACLES_E; norm_num, hraw⟩
  · unfold computeExtraObstaclesEasing
    split
    · exact min_le_left _ _
    · exact min_le_left _ _
  · intro hlt
    have hltn : ¬ HIGH_SPEED_THRESHOLD < s := by
      push_neg
      linarith
    unfold computeExtraObstaclesEasing
    rw [if_neg hltn]
    rcases le_total s easingBaseSpeed with hle | hle
    · have h1 : max 0 (s - easingBaseSpeed) = 0 := max_eq_left (by linarith)
      have h2 : ⌊(s - easingBaseSpeed) / SPEED_LEVEL_E⌋ ≤ 0 := by
        apply Int.floor_nonpos
        apply div_nonpos_of_nonpos_of_nonneg (by linarith)
        unfold SPEED_LEVEL_E; norm_num
      rw [h1]
      have h3 : max (0 : ℤ) ⌊(s - easingBaseSpeed) / SPEED_LEVEL_E⌋ = 0 := max_eq_left h2
      rw [h3]
      norm_num
    · have h1 : max 0 (s - easingBaseSpeed) = s - easingBaseSpeed := max_eq_right (by linarith)
      rw [h1]
      have h2 : (0 : ℤ) ≤ ⌊(s - easingBaseSpeed) / SPEED_LEVEL_E⌋ := by
        apply Int.floor_nonneg.mpr
        apply div_nonneg (by linarith)
        unfold SPEED_LEVEL_E; norm_num
      rw [max_eq_right h2]
  · intro h hlt2
    have hlt1 : ¬ HIGH_SPEED_THRESHOLD < s1 := by
      push_neg
      linarith
    have hlt2n : ¬ HIGH_SPEED_THRESHOLD < s2 := by
      push_neg
      linarith
    unfold computeExtraObstaclesEasing
    rw [if_neg hlt1, if_neg hlt2n]
    apply min_le_min (le_refl _)
    apply Int.floor_le_floor
    apply div_le_div_of_nonneg_right ?_ ?_ |>.trans (le_refl _)
    · exact max_le_max (le_refl _) (by linarith)
    · unfold SPEED_LEVEL_E; norm_num

/-- Witness for C4 at speeds 6, 5, 7. -/
theorem C4_extra_obstacles_witness :
    ((5 : ℚ) ≤ 7 ∧ (7 : ℚ) < HIGH_SPEED_THRESHOLD) ∧
    (0 ≤ computeExtraObstacles 6 ∧ computeExtraObstacles 6 ≤ MAX_EXTRA_OBSTACLES) ∧
    computeExtraObstacles 6 = specExtraFormula 6 ∧
    computeExtraObstacles 5 ≤ computeExtraObstacles 7 ∧
    computeExtraObstaclesEasing 6 =
      min MAX_EXTRA_OBSTACLES_E (max 0 ⌊((6 : ℚ) - easingBaseSpeed) / SPEED_LEVEL_E⌋) ∧
    computeExtraObstaclesEasing 5 ≤ computeExtraObstaclesEasing 7 :=
  ⟨⟨by decide, by decide⟩,
   (C4_extra_obstacles 6 5 7).1,
   (C4_extra_obstacles 6 5 7).2.1,
   (C4_extra_obstacles 6 5 7).2.2.1 (by decide),
   (C4_extra_obstacles 6 5 7).2.2.2.2.1 (by decide),
   (C4_extra_obstacles 6 5 7).2.2.2.2.2 (by decide) (by decide)⟩

/-- Last obstacle's worldX with the fallback `dino.x + 150`,
src/script.js lines 176-179. -/
def genLastX (s : GameState) : ℚ :=
  ((s.obstacles.getLast?).map Obstacle.worldX).getD (s.dinoX + 150)

/-- Position of the next generated obstacle, src/script.js lines 180-181:
last + gap + small jitter in [-40, 39].  Consumes draws rngIdx (gap) and
rngIdx+1 (jitter). -/
def genNextX (s : GameState) : ℚ :=
  genLastX s + computeGapForSpeed s.gameSpeed (s.rng s.rngIdx) +
    ((⌊s.rng (s.rngIdx + 1) * 80⌋ : ℤ) : ℚ) - 40

/-- Obstacle produced by one generation step (draws rngIdx+2..rngIdx+4 feed
the Obstacle constructor). -/
def newOb (s : GameState) : Obstacle :=
  mkObstacle (genNextX s) s.groundY (s.rng (s.rngIdx + 2)) (s.rng (s.rngIdx + 3))
    (s.rng (s.rngIdx + 4))

/-- Obstacle generation step, src/script.js lines 175-183; consumes five
draws (gap, jitter, three for the Obstacle constructor). -/
def generateNextObstacle (s : GameState) : GameState :=
  { s with obstacles := s.obstacles ++ [newOb s], rngIdx := s.rngIdx + 5 }

/-- Iterated obstacle generation (the `for` loops around
`generateNextObstacle()` calls in src/script.js). -/
def genN : ℕ → GameState → GameState
  | 0, s => s
  | n + 1, s => genN n (generateNextObstacle s)

/-- Body of the first initial-population loop, src/script.js lines 190-194;
consumes five draws and returns the new cursor. -/
def popStep1 (s : GameState) (cursor : ℚ) : GameState × ℚ :=
  let gap := computeGapForSpeed s.gameSpeed (s.rng s.rngIdx)
  let c2 := cursor + gap + ((⌊s.rng (s.rngIdx + 1) * 40⌋ : ℤ) : ℚ) - 20
  ({ s with
      obstacles := s.obstacles ++
        [mkObstacle c2 s.groundY (s.rng (s.rngIdx + 2)) (s.rng (s.rngIdx + 3))
          (s.rng (s.rngIdx + 4))],
      rngIdx := s.rngIdx + 5 }, c2)

/-- First initial-population loop iterated. -/
def popLoop1 : ℕ → GameState → ℚ → GameState × ℚ
  | 0, s, c => (s, c)
  | n + 1, s, c => popLoop1 n (popStep1 s c).1 (popStep1 s c).2

/-- Body of the second ("a few extra far ones") loop, src/script.js
lines 196-200; consumes five draws. -/
def popStep2 (s : GameState) (cursor : ℚ) : GameState × ℚ :=
  let gap := computeGapForSpeed s.gameSpeed (s.rng s.rngIdx) + 200 +
    ((⌊s.rng (s.rngIdx + 1) * 300⌋ : ℤ) : ℚ)
  let c2 := cursor + gap
  ({ s with
      obstacles := s.obstacles ++
        [mkObstacle c2 s.groundY (s.rng (s.rngIdx + 2)) (s.rng (s.rngIdx + 3))
          (s.rng (s.rngIdx + 4))],
      rngIdx := s.rngIdx + 5 }, c2)

/-- Second initial-population loop iterated. -/
def popLoop2 : ℕ → GameState → ℚ → GameState × ℚ
  | 0, s, c => (s, c)
  | n + 1, s, c => popLoop2 n (popStep2 s c).1 (popStep2 s c).2

/-- Initial population, src/script.js lines 185-201: clear the array, then
16 near obstacles (baseInitial 10 + INITIAL_EXTRA_OBSTACLES 6), then 6 far
ones. -/
def populateInitialObstacles (s : GameState) : GameState :=
  let s0 := { s with obstacles := [] }
  let p1 := popLoop1 16 s0 (s0.dinoX + 150)
  (popLoop2 6 p1.1 p1.2).1

/-- Dino reset, src/script.js lines 117-122. -/
def dinoReset (s : GameState) : GameState :=
  { s with dinoX := 40, dinoY := s.groundY - dinoH, dinoVy := 0, dinoGrounded := true }

/-- Layout recalculation, src/script.js lines 34-39 (worldX untouched, y
re-derived from the ground line). -/
def recalcLayout (s : GameState) : GameState :=
  { s with
    dinoY := min s.dinoY (s.groundY - dinoH),
    obstacles := s.obstacles.map (fun o => { o with y := s.groundY - o.h }) }

/-- Flag, counter and speed assignments at the top of resetGame,
src/script.js lines 206-211. -/
def preReset (s : GameState) : GameState :=
  { s with frame := 0, score := 0, running := true, isPaused := false,
           godMode := false, gameSpeed := baseSpeed }

/-- Game reset, src/script.js lines 204-216 (resize and HUD update have no
core-state effect in the fixed-viewport model). -/
def resetGame (s : GameState) : GameState :=
  recalcLayout (populateInitialObstacles (dinoReset (preReset s)))

/-- Dino physics update, src/script.js lines 97-110: gravity into velocity,
velocity into y, ground clamp, then horizontal advance while running and
unpaused. -/
def dinoUpdate (s : GameState) : GameState :=
  let vy := s.dinoVy + s.gravity
  let y := s.dinoY + vy
  let s1 :=
    if s.groundY ≤ y + dinoH then
      { s with dinoY := s.groundY - dinoH, dinoVy := 0, dinoGrounded := true }
    else
      { s with dinoY := y, dinoVy := vy, dinoGrounded := false }
  if s1.running && !s1.isPaused then { s1 with dinoX := s1.dinoX + s1.gameSpeed } else s1

/-- Jump request, src/script.js lines 111-116: only effective when
grounded. -/
def dinoJump (s : GameState) : GameState :=
  if s.dinoGrounded then { s with dinoVy := jumpForce, dinoGrounded := false } else s

/-- Number of obstacles strictly ahead of the dino, src/script.js
line 276. -/
def aheadCount (s : GameState) : ℕ :=
  (s.obstacles.filter (fun o => decide (s.dinoX < o.worldX))).length

/-- Desired buffer size, src/script.js lines 272-273. -/
def desiredBuffer (speed : ℚ) : ℤ :=
  BASE_OBSTACLE_BUFFER + computeExtraObstacles speed + INITIAL_EXTRA_OBSTACLES

/-- Buffer-maintenance step of the loop, src/script.js lines 271-293:
deficit-fill when fewer than desired+1 obstacles are ahead, otherwise a
probabilistic trickle of 1-2 obstacles when the farthest obstacle is closer
than the threshold. -/
def bufferMaintain (s : GameState) : GameState :=
  let desired := desiredBuffer s.gameSpeed
  let ahead := aheadCount s
  if (ahead : ℤ) < desired + 1 then
    genN (desired + 1 - ahead).toNat s
  else
    let farthest := ((s.obstacles.getLast?).map Obstacle.worldX).getD s.dinoX
    let gap := computeGapForSpeed s.gameSpeed (s.rng s.rngIdx)
    let s1 := { s with rngIdx := s.rngIdx + 1 }
    let threshold := s.dinoX + gap * max 1 ((desired : ℚ) * (9/10))
    if farthest < threshold then
      let bonusProb := min (17/20) ((computeExtraObstacles s.gameSpeed : ℚ) * (3/20) + 3/20)
      let bonus : ℕ := if s1.rng s1.rngIdx < bonusProb then 1 else 0
      genN (1 + bonus) { s1 with rngIdx := s1.rngIdx + 1 }
    else s1

/-- Score update, src/script.js line 296. -/
def applyScore (s : GameState) : GameState :=
  { s with score := max s.score ((⌊(s.dinoX - 40) * (3/10)⌋ : ℤ) : ℚ) }

/-- Difficulty ramp, src/script.js lines 299-305: every 800 frames, speed
+1 and a capped burst of obstacles. -/
def applyRamp (s : GameState) : GameState :=
  if s.frame % 800 == 0 then
    let old := s.gameSpeed
    let s1 := { s with gameSpeed := s.gameSpeed + 1 }
    genN (min 4 (computeExtraObstacles s1.gameSpeed - computeExtraObstacles old + 1)).toNat s1
  else s

/-- Collision step, src/script.js lines 307-316: unless god mode, the first
overlapping obstacle ends the run. -/
def applyCollision (s : GameState) : GameState :=
  if !s.godMode && s.obstacles.any (fun o => collides s o) then
    { s with running := false }
  else s

/-- One tick of the game loop, src/script.js lines 266-322 (rendering and
HUD excluded): the whole update block is guarded by `!isPaused && running`. -/
def tick (s : GameState) : GameState :=
  if !s.isPaused && s.running then
    applyCollision (applyRamp (applyScore (bufferMaintain
      (dinoUpdate { s with frame := s.frame + 1 }))))
  else s

/-- Iterated ticks. -/
def tickN (n : ℕ) (s : GameState) : GameState := tick^[n] s

/-- Model of a JavaScript number argument as received by the public API:
either a finite rational or one of the non-finite values. -/
inductive JsNumber where
  | finite (q : ℚ)
  | nan
  | posInf
  | negInf

/-- Speed setter of the public API, src/script.js lines 395-401: only
finite non-negative values are accepted; everything else is ignored.  (For
NaN the comparison `n >= 0` is false in JavaScript, so NaN is ignored by
the same test.) -/
def setSpeed (v : JsNumber) (s : GameState) : GameState :=
  match v with
  | .finite n => if 0 ≤ n then { s with gameSpeed := n } else s
  | _ => s

/-- Debug obstacle spawner of the public API, src/script.js lines 402-405:
non-finite positions are ignored; otherwise an obstacle is constructed at
the position (three draws). -/
def addObstacleAt (v : JsNumber) (s : GameState) : GameState :=
  match v with
  | .finite n =>
    { s with
      obstacles := s.obstacles ++
        [mkObstacle n s.groundY (s.rng s.rngIdx) (s.rng (s.rngIdx + 1))
          (s.rng (s.rngIdx + 2))],
      rngIdx := s.rngIdx + 3 }
  | _ => s

/-- God-mode setter of the public API, src/script.js line 393. -/
def setGodMode (b : Bool) (s : GameState) : GameState := { s with godMode := b }

/-- God-mode toggle of the public API, src/script.js line 394. -/
def toggleGodMode (s : GameState) : GameState := { s with godMode := !s.godMode }

/-- Pause toggle, src/script.js lines 243-244. -/
def togglePause (s : GameState) : GameState := { s with isPaused := !s.isPaused }

/-- Runner state used in the C8 scenario: box [x=40, y=100, w=40, h=40]
(the width and height are the fixed dino constants). -/
def c8Runner : GameState :=
  { gameSpeed := baseSpeed, gravity := 17/25, frame := 0, score := 0,
    running := true, isPaused := false, godMode := false,
    dinoX := 40, dinoY := 100, dinoVy := 0, dinoGrounded := true,
    obstacles := [], groundY := 260, rng := fun _ => 1/2, rngIdx := 0 }

/-- Obstacle box [worldX=50, y=110, w=20, h=20] of the C8 scenario. -/
def c8Ob1 : Obstacle := { w := 20, h := 20, worldX := 50, y := 110 }

/-- Same obstacle moved to worldX=100. -/
def c8Ob2 : Obstacle := { w := 20, h := 20, worldX := 100, y := 110 }

/-- C8: the collision predicate holds exactly when both the horizontal and
the vertical intervals intersect (strictly on both ends), and on the
scenario boxes it returns true at worldX=50 and false at worldX=100. -/
theorem C8_collision_iff :
    (∀ (s : GameState) (o : Obstacle),
      collides s o = true ↔
        (intervalsIntersect s.dinoX dinoW o.worldX o.w ∧
         intervalsIntersect s.dinoY dinoH o.y o.h)) ∧
    collides c8Runner c8Ob1 = true ∧ collides c8Runner c8Ob2 = false := by
  refine ⟨fun s o => ?_, by with_unfolding_all decide, by with_unfolding_all decide⟩
  unfold collides intervalsIntersect
  simp only [Bool.and_eq_true, decide_eq_true_eq]
  tauto

/-- Neutral concrete state used by witnesses. -/
def sampleState : GameState :=
  { gameSpeed := baseSpeed, gravity := 17/25, frame := 0, score := 0,
    running := true, isPaused := false, godMode := false,
    dinoX := 40, dinoY := 220, dinoVy := 0, dinoGrounded := true,
    obstacles := [], groundY := 260, rng := fun _ => 1/2, rngIdx := 0 }

/-- C7: setSpeed updates the speed exactly for finite non-negative
arguments and is a complete no-op (whole state unchanged) for negative or
non-finite ones; addObstacleAt with a non-finite position leaves the state
(in particular the obstacle sequence) unchanged. -/
theorem C7_setSpeed_guard :
    (∀ (s : GameState) (q : ℚ), 0 ≤ q →
      setSpeed (JsNumber.finite q) s = { s with gameSpeed := q }) ∧
    (∀ (s : GameState) (q : ℚ), q < 0 → setSpeed (JsNumber.finite q) s = s) ∧
    (∀ s : GameState, setSpeed JsNumber.nan s = s ∧ setSpeed JsNumber.posInf s = s ∧
      setSpeed JsNumber.negInf s = s) ∧
    (∀ s : GameState, addObstacleAt JsNumber.nan s = s ∧
      addObstacleAt JsNumber.posInf s = s ∧ addObstacleAt JsNumber.negInf s = s) := by
  refine ⟨fun s q hq => ?_, fun s q hq => ?_, fun s => ⟨rfl, rfl, rfl⟩,
    fun s => ⟨rfl, rfl, rfl⟩⟩
  · simp only [setSpeed, if_pos hq]
  · simp only [setSpeed, if_neg (not_le.mpr hq)]

/-- Witness for C7 at speed 3 and -2 on a concrete state. -/
theorem C7_setSpeed_guard_witness :
    ((0 : ℚ) ≤ 3 ∧ (-2 : ℚ) < 0) ∧
    setSpeed (JsNumber.finite 3) sampleState = { sampleState with gameSpeed := 3 } ∧
    setSpeed (JsNumber.finite (-2)) sampleState = sampleState ∧
    setSpeed JsNumber.nan sampleState = sampleState ∧
    addObstacleAt JsNumber.nan sampleState = sampleState :=
  ⟨⟨by norm_num, by norm_num⟩,
   C7_setSpeed_guard.1 sampleState 3 (by norm_num),
   C7_setSpeed_guard.2.1 sampleState (-2) (by norm_num),
   (C7_setSpeed_guard.2.2.1 sampleState).1,
   (C7_setSpeed_guard.2.2.2 sampleState).1⟩

/-- Runner of the C9 scenario: speed 5, gravity 0.65, grounded at ground
level (ground line 260, so y = 220). -/
def c9Start : GameState :=
  { gameSpeed := 5, gravity := 13/20, frame := 0, score := 0,
    running := true, isPaused := false, godMode := false,
    dinoX := 40, dinoY := 220, dinoVy := 0, dinoGrounded := true,
    obstacles := [], groundY := 260, rng := fun _ => 0, rngIdx := 0 }

/-- State right after the jump call of the C9 scenario. -/
def c9Jumped : GameState := dinoJump c9Start

/-- C9: with speed 5, gravity 0.65 and jump impulse -15, jumping from the
ground sets vy = -15 and grounded = false; the runner is still airborne
after 45 physics updates and lands exactly at the 46th, back at ground
level with vy = 0 and grounded = true; jump while airborne (here: one
update after the jump, and in general) has no effect. -/
theorem C9_jump_scenario :
    c9Jumped.dinoVy = -15 ∧ c9Jumped.dinoGrounded = false ∧
    (dinoUpdate^[45] c9Jumped).dinoGrounded = false ∧
    (dinoUpdate^[46] c9Jumped).dinoY = c9Start.groundY - dinoH ∧
    (dinoUpdate^[46] c9Jumped).dinoGrounded = true ∧
    (dinoUpdate^[46] c9Jumped).dinoVy = 0 ∧
    (∀ s : GameState, s.dinoGrounded = false → dinoJump s = s) := by
  refine ⟨by with_unfolding_all decide, by with_unfolding_all decide,
    by with_unfolding_all decide, by with_unfolding_all decide,
    by with_unfolding_all decide, by with_unfolding_all decide,
    fun s hs => ?_⟩
  simp only [dinoJump, hs, Bool.false_eq_true, if_false]

/-- Witness for C9's airborne-jump clause at the state one update after
the jump. -/
theorem C9_jump_scenario_witness :
    (dinoUpdate c9Jumped).dinoGrounded = false ∧
    dinoJump (dinoUpdate c9Jumped) = dinoUpdate c9Jumped :=
  ⟨by with_unfolding_all decide,
   C9_jump_scenario.2.2.2.2.2.2 (dinoUpdate c9Jumped) (by with_unfolding_all decide)⟩

/-- Growth relation on states: the obstacle sequence of the second state
extends that of the first by some (possibly empty) suffix. -/
def obsGrows (s s' : GameState) : Prop :=
  ∃ t, s'.obstacles = s.obstacles ++ t

theorem obsGrows_refl (s : GameState) : obsGrows s s :=
  ⟨[], (List.append_nil _).symm⟩

theorem obsGrows_trans {s s' s'' : GameState} (h1 : obsGrows s s')
    (h2 : obsGrows s' s'') : obsGrows s s'' := by
  obtain ⟨t, ht⟩ := h1
  obtain ⟨u, hu⟩ := h2
  exact ⟨t ++ u, by rw [hu, ht, List.append_assoc]⟩

theorem obsGrows_length {s s' : GameState} (h : obsGrows s s') :
    s.obstacles.length ≤ s'.obstacles.length := by
  obtain ⟨t, ht⟩ := h
  rw [ht, List.length_append]
  omega

theorem gen_obsGrows (s : GameState) : obsGrows s (generateNextObstacle s) :=
  ⟨_, rfl⟩

theorem genN_obsGrows (n : ℕ) : ∀ s : GameState, obsGrows s (genN n s) := by
  induction n with
  | zero => exact fun s => obsGrows_refl s
  | succ n ih =>
    intro s
    exact obsGrows_trans (gen_obsGrows s) (ih (generateNextObstacle s))

theorem dinoUpdate_obstacles (s : GameState) :
    (dinoUpdate s).obstacles = s.obstacles := by
  unfold dinoUpdate
  dsimp only
  split <;> split <;> rfl

theorem bufferMaintain_obsGrows (s : GameState) : obsGrows s (bufferMaintain s) := by
  unfold bufferMaintain
  dsimp only
  split
  · exact genN_obsGrows _ _
  · split
    · exact genN_obsGrows _ _
    · exact obsGrows_refl _

theorem applyRamp_obsGrows (s : GameState) : obsGrows s (applyRamp s) := by
  unfold applyRamp
  dsimp only
  split
  · exact genN_obsGrows _ _
  · exact obsGrows_refl _

theorem applyCollision_obstacles (s : GameState) :
    (applyCollision s).obstacles = s.obstacles := by
  unfold applyCollision
  split <;> rfl

theorem tick_obsGrows (s : GameState) : obsGrows s (tick s) := by
  unfold tick
  split
  · have h1 : obsGrows s (dinoUpdate { s with frame := s.frame + 1 }) :=
      ⟨[], by rw [dinoUpdate_obstacles, List.append_nil]⟩
    have h2 := bufferMaintain_obsGrows (dinoUpdate { s with frame := s.frame + 1 })
    have h3 : obsGrows (bufferMaintain (dinoUpdate { s with frame := s.frame + 1 }))
        (applyScore (bufferMaintain (dinoUpdate { s with frame := s.frame + 1 }))) :=
      ⟨[], (List.append_nil _).symm⟩
    have h4 := applyRamp_obsGrows
      (applyScore (bufferMaintain (dinoUpdate { s with frame := s.frame + 1 })))
    have h5 : obsGrows
        (applyRamp (applyScore (bufferMaintain (dinoUpdate { s with frame := s.frame + 1 }))))
        (applyCollision (applyRamp (applyScore (bufferMaintain
          (dinoUpdate { s with frame := s.frame + 1 }))))) :=
      ⟨[], by rw [applyCollision_obstacles, List.append_nil]⟩
    exact obsGrows_trans h1 (obsGrows_trans h2 (obsGrows_trans h3 (obsGrows_trans h4 h5)))
  · exact obsGrows_refl _

/-- C10: during a run the obstacle sequence only grows — one tick, and
every public operation other than restart, either appends obstacles or
leaves the sequence unchanged, so the obstacle count is monotonically
non-decreasing between restarts. -/
theorem C10_obstacles_only_grow :
    (∀ s : GameState, obsGrows s (tick s)) ∧
    (∀ (s : GameState) (n : ℕ), obsGrows s (tickN n s)) ∧
    (∀ (s : GameState) (v : JsNumber), obsGrows s (addObstacleAt v s)) ∧
    (∀ (s : GameState) (v : JsNumber), (setSpeed v s).obstacles = s.obstacles) ∧
    (∀ (s : GameState) (b : Bool), (setGodMode b s).obstacles = s.obstacles) ∧
    (∀ s : GameState, (toggleGodMode s).obstacles = s.obstacles) ∧
    (∀ s : GameState, (togglePause s).obstacles = s.obstacles) ∧
    (∀ s : GameState, (dinoJump s).obstacles = s.obstacles) ∧
    (∀ s : GameState, (recalcLayout s).obstacles.length = s.obstacles.length) ∧
    (∀ s : GameState, s.obstacles.length ≤ (tick s).obstacles.length) := by
  have htickN : ∀ (n : ℕ) (s : GameState), obsGrows s (tickN n s) := by
    intro n
    induction n with
    | zero => exact fun s => obsGrows_refl s
    | succ n ih =>
      intro s
      have : tickN (n + 1) s = tickN n (tick s) := Function.iterate_succ_apply tick n s
      rw [this]
      exact obsGrows_trans (tick_obsGrows s) (ih (tick s))
  refine ⟨tick_obsGrows, fun s n => htickN n s, fun s v => ?_, fun s v => ?_,
    fun s b => rfl, fun s => rfl, fun s => rfl, fun s => ?_,
    fun s => List.length_map s.obstacles _,
    fun s => obsGrows_length (tick_obsGrows s)⟩
  · cases v with
    | finite q => exact ⟨_, rfl⟩
    | nan => exact obsGrows_refl _
    | posInf => exact obsGrows_refl _
    | negInf => exact obsGrows_refl _
  · cases v with
    | finite q =>
      show (if 0 ≤ q then { s with gameSpeed := q } else s).obstacles = s.obstacles
      split <;> rfl
    | nan => rfl
    | posInf => rfl
    | negInf => rfl
  · unfold dinoJump
    split <;> rfl

theorem gen_godMode (s : GameState) :
    (generateNextObstacle s).godMode = s.godMode := rfl

theorem gen_running (s : GameState) :
    (generateNextObstacle s).running = s.running := rfl

theorem genN_godMode (n : ℕ) : ∀ s : GameState, (genN n s).godMode = s.godMode := by
  induction n with
  | zero => exact fun s => rfl
  | succ n ih => exact fun s => (ih (generateNextObstacle s)).trans rfl

theorem genN_running (n : ℕ) : ∀ s : GameState, (genN n s).running = s.running := by
  induction n with
  | zero => exact fun s => rfl
  | succ n ih => exact fun s => (ih (generateNextObstacle s)).trans rfl

theorem dinoUpdate_godMode (s : GameState) :
    (dinoUpdate s).godMode = s.godMode := by
  unfold dinoUpdate
  dsimp only
  split <;> split <;> rfl

theorem dinoUpdate_running (s : GameState) :
    (dinoUpdate s).running = s.running := by
  unfold dinoUpdate
  dsimp only
  split <;> split <;> rfl

theorem bufferMaintain_godMode (s : GameState) :
    (bufferMaintain s).godMode = s.godMode := by
  unfold bufferMaintain
  dsimp only
  split
  · exact genN_godMode _ _
  · split
    · exact genN_godMode _ _
    · rfl

theorem bufferMaintain_running (s : GameState) :
    (bufferMaintain s).running = s.running := by
  unfold bufferMaintain
  dsimp only
  split
  · exact genN_running _ _
  · split
    · exact genN_running _ _
    · rfl

theorem applyRamp_godMode (s : GameState) : (applyRamp s).godMode = s.godMode := by
  unfold applyRamp
  dsimp only
  split
  · exact genN_godMode _ _
  · rfl

theorem applyRamp_running (s : GameState) : (applyRamp s).running = s.running := by
  unfold applyRamp
  dsimp only
  split
  · exact genN_running _ _
  · rfl

theorem applyCollision_godMode (s : GameState) :
    (applyCollision s).godMode = s.godMode := by
  unfold applyCollision
  split <;> rfl

theorem applyCollision_running_god (s : GameState) (h : s.godMode = true) :
    (applyCollision s).running = s.running := by
  unfold applyCollision
  rw [h]
  rfl

theorem tick_godMode (s : GameState) : (tick s).godMode = s.godMode := by
  unfold tick
  split
  · rw [applyCollision_godMode, applyRamp_godMode]
    show (bufferMaintain _).godMode = _
    rw [bufferMaintain_godMode, dinoUpdate_godMode]
  · rfl

theorem tick_running_god (s : GameState) (h : s.godMode = true) :
    (tick s).running = s.running := by
  unfold tick
  split
  · rw [applyCollision_running_god, applyRamp_running]
    · show (bufferMaintain _).running = _
      rw [bufferMaintain_running, dinoUpdate_running]
    · rw [applyRamp_godMode]
      show (bufferMaintain _).godMode = _
      rw [bufferMaintain_godMode, dinoUpdate_godMode]
      exact h
  · rfl

/-- C5: from any state with god mode on, no sequence of ticks can end the
run — god mode stays on and `running` keeps its value across any number of
ticks, regardless of obstacle overlap. -/
theorem C5_god_mode_never_finishes (s : GameState) (n : ℕ) (h : s.godMode = true) :
    (tickN n s).godMode = true ∧ (tickN n s).running = s.running := by
  induction n with
  | zero => exact ⟨h, rfl⟩
  | succ n ih =>
    have hstep : tickN (n + 1) s = tick (tickN n s) := Function.iterate_succ_apply' tick n s
    rw [hstep]
    exact ⟨(tick_godMode _).trans ih.1,
      (tick_running_god _ ih.1).trans ih.2⟩

/-- Witness for C5 on a concrete god-mode state over two ticks. -/
theorem C5_god_mode_never_finishes_witness :
    (setGodMode true sampleState).godMode = true ∧
    (tickN 2 (setGodMode true sampleState)).godMode = true ∧
    (tickN 2 (setGodMode true sampleState)).running = (setGodMode true sampleState).running :=
  ⟨rfl, (C5_god_mode_never_finishes (setGodMode true sampleState) 2 rfl).1,
    (C5_god_mode_never_finishes (setGodMode true sampleState) 2 rfl).2⟩

theorem extra_nonneg (speed : ℚ) : 0 ≤ computeExtraObstacles speed := by
  unfold computeExtraObstacles MAX_EXTRA_OBSTACLES
  simp only [le_min_iff]
  exact ⟨by norm_num, le_max_left _ _⟩

theorem floorq_cast_nonneg (x : ℚ) (h : 0 ≤ x) : (0 : ℚ) ≤ ((⌊x⌋ : ℤ) : ℚ) := by
  have h2 : (0 : ℤ) ≤ ⌊x⌋ := Int.floor_nonneg.mpr h
  exact_mod_cast h2

theorem computeGap_lower (speed r : ℚ) : GAP_MIN ≤ computeGapForSpeed speed r := by
  unfold computeGapForSpeed
  exact le_max_left _ _

/-- Key quantitative fact: every generated obstacle lands at least
GAP_MIN - 40 = 120 beyond the generation reference point (the last
obstacle, or dino.x + 150 when the list is empty). -/
theorem genNextX_lower (s : GameState) (hr : rngOK s.rng) :
    genLastX s + 120 ≤ genNextX s := by
  have hgap := computeGap_lower s.gameSpeed (s.rng s.rngIdx)
  obtain ⟨h0, _⟩ := hr (s.rngIdx + 1)
  have hj : (0 : ℚ) ≤ ((⌊s.rng (s.rngIdx + 1) * 80⌋ : ℤ) : ℚ) :=
    floorq_cast_nonneg _ (by positivity)
  unfold genNextX
  unfold GAP_MIN at hgap
  linarith

/-- Analysis predicate: the last obstacle (generation reference point) is
strictly ahead of the dino; vacuously true for an empty list. -/
@[reducible] def lastAhead (s : GameState) : Prop := s.dinoX < genLastX s

theorem genLastX_gen (s : GameState) :
    genLastX (generateNextObstacle s) = genNextX s := by
  unfold genLastX
  show (((s.obstacles ++ [newOb s]).getLast?).map Obstacle.worldX).getD _ = _
  rw [List.getLast?_concat]
  rfl

theorem gen_dinoX_lt (s : GameState) (hr : rngOK s.rng) (hla : lastAhead s) :
    s.dinoX < genNextX s := by
  have := genNextX_lower s hr
  unfold lastAhead at hla
  linarith

theorem gen_lastAhead (s : GameState) (hr : rngOK s.rng) (hla : lastAhead s) :
    lastAhead (generateNextObstacle s) := by
  unfold lastAhead
  rw [genLastX_gen]
  exact gen_dinoX_lt s hr hla

theorem gen_aheadCount (s : GameState) (hr : rngOK s.rng) (hla : lastAhead s) :
    aheadCount (generateNextObstacle s) = aheadCount s + 1 := by
  have hx : s.dinoX < (newOb s).worldX := gen_dinoX_lt s hr hla
  show ((s.obstacles ++ [newOb s]).filter (fun o => decide (s.dinoX < o.worldX))).length =
    (s.obstacles.filter (fun o => decide (s.dinoX < o.worldX))).length + 1
  rw [List.filter_append, List.length_append]
  simp [List.filter_singleton, hx]

theorem genN_aheadCount (n : ℕ) : ∀ s : GameState, rngOK s.rng → lastAhead s →
    aheadCount (genN n s) = aheadCount s + n ∧ lastAhead (genN n s) := by
  induction n with
  | zero => exact fun s _ hla => ⟨rfl, hla⟩
  | succ n ih =>
    intro s hr hla
    have hr' : rngOK (generateNextObstacle s).rng := hr
    obtain ⟨hc, hl⟩ := ih (generateNextObstacle s) hr' (gen_lastAhead s hr hla)
    refine ⟨?_, hl⟩
    show aheadCount (genN n (generateNextObstacle s)) = aheadCount s + (n + 1)
    rw [hc, gen_aheadCount s hr hla]
    omega

/-- Core of the amended C1: whenever the generation reference point is
ahead of the dino (in particular when the list is empty or its last
obstacle is ahead), the maintenance step restores the desired buffer. -/
theorem bufferMaintain_ahead (s : GameState) (hr : rngOK s.rng) (hla : lastAhead s) :
    desiredBuffer s.gameSpeed ≤ (aheadCount (bufferMaintain s) : ℤ) := by
  unfold bufferMaintain
  dsimp only
  split
  · rename_i h
    obtain ⟨hc, _⟩ := genN_aheadCount _ s hr hla
    rw [hc]
    have htn : ((desiredBuffer s.gameSpeed + 1 - (aheadCount s : ℤ)).toNat : ℤ) =
        desiredBuffer s.gameSpeed + 1 - (aheadCount s : ℤ) :=
      Int.toNat_of_nonneg (by omega)
    push_cast
    omega
  · rename_i h
    split
    · have hr2 : rngOK ({ s with rngIdx := s.rngIdx + 1 + 1 } : GameState).rng := hr
      have hla2 : lastAhead ({ s with rngIdx := s.rngIdx + 1 + 1 } : GameState) := hla
      obtain ⟨hc, _⟩ := genN_aheadCount _ { s with rngIdx := s.rngIdx + 1 + 1 } hr2 hla2
      rw [hc]
      have he : aheadCount ({ s with rngIdx := s.rngIdx + 1 + 1 } : GameState) =
          aheadCount s := rfl
      rw [he]
      push_cast
      omega
    · have he : aheadCount ({ s with rngIdx := s.rngIdx + 1 } : GameState) =
          aheadCount s := rfl
      rw [he]
      omega

theorem dinoUpdate_rng (s : GameState) : (dinoUpdate s).rng = s.rng := by
  unfold dinoUpdate
  dsimp only
  split <;> split <;> rfl

/-- Shape of a generation burst: only the obstacle list and the stream
index change. -/
theorem genN_shape (n : ℕ) : ∀ s : GameState,
    ∃ l i, genN n s = { s with obstacles := l, rngIdx := i } := by
  induction n with
  | zero => exact fun s => ⟨s.obstacles, s.rngIdx, rfl⟩
  | succ n ih =>
    intro s
    obtain ⟨l, i, h⟩ := ih (generateNextObstacle s)
    exact ⟨l, i, h⟩

/-- Shape of the first population loop: only the obstacle list and the
stream index change. -/
theorem popLoop1_shape (n : ℕ) : ∀ (s : GameState) (c : ℚ),
    ∃ l i c2, popLoop1 n s c = ({ s with obstacles := l, rngIdx := i }, c2) := by
  induction n with
  | zero => exact fun s c => ⟨s.obstacles, s.rngIdx, c, rfl⟩
  | succ n ih =>
    intro s c
    obtain ⟨l, i, c2, h⟩ := ih (popStep1 s c).1 (popStep1 s c).2
    exact ⟨l, i, c2, h⟩

/-- Shape of the second population loop. -/
theorem popLoop2_shape (n : ℕ) : ∀ (s : GameState) (c : ℚ),
    ∃ l i c2, popLoop2 n s c = ({ s with obstacles := l, rngIdx := i }, c2) := by
  induction n with
  | zero => exact fun s c => ⟨s.obstacles, s.rngIdx, c, rfl⟩
  | succ n ih =>
    intro s c
    obtain ⟨l, i, c2, h⟩ := ih (popStep2 s c).1 (popStep2 s c).2
    exact ⟨l, i, c2, h⟩

/-- Shape of the whole initial population. -/
theorem populate_shape (s : GameState) :
    ∃ l i, populateInitialObstacles s = { s with obstacles := l, rngIdx := i } := by
  unfold populateInitialObstacles
  dsimp only
  obtain ⟨l1, i1, c1, h1⟩ := popLoop1_shape 16 { s with obstacles := [] } (s.dinoX + 150)
  rw [h1]
  obtain ⟨l2, i2, c2, h2⟩ := popLoop2_shape 6 { s with obstacles := l1, rngIdx := i1 } c1
  rw [h2]
  exact ⟨l2, i2, rfl⟩

theorem populate_rng (s : GameState) : (populateInitialObstacles s).rng = s.rng := by
  obtain ⟨l, i, h⟩ := populate_shape s
  rw [h]

theorem resetGame_rng (s : GameState) : (resetGame s).rng = s.rng := by
  unfold resetGame recalcLayout
  dsimp only
  rw [populate_rng]
  unfold dinoReset
  rfl

/-- C1 (amended): for a tick executed while Running and not Paused, if at
the buffer-maintenance step the obstacle list is empty or its last
obstacle lies strictly ahead of the runner (`lastAhead`), then after the
maintenance step the number of obstacles strictly ahead of the runner is
at least BASE_OBSTACLE_BUFFER + computeExtraObstacles(gameSpeed) +
INITIAL_EXTRA_OBSTACLES. -/
theorem C1_buffer_invariant_amended (s : GameState) (hr : rngOK s.rng)
    (hrun : s.running = true) (hp : s.isPaused = false)
    (hla : lastAhead (dinoUpdate { s with frame := s.frame + 1 })) :
    desiredBuffer (dinoUpdate { s with frame := s.frame + 1 }).gameSpeed ≤
      (aheadCount (bufferMaintain (dinoUpdate { s with frame := s.frame + 1 })) : ℤ) := by
  have hr2 : rngOK (dinoUpdate { s with frame := s.frame + 1 }).rng := by
    rw [dinoUpdate_rng]
    exact hr
  exact bufferMaintain_ahead _ hr2 hla

/-- Initial state used to build the C1 counterexample run (fixed viewport
with ground line 260, deterministic draws of 1/2). -/
def cInit : GameState :=
  { gameSpeed := baseSpeed, gravity := 17/25, frame := 0, score := 0,
    running := true, isPaused := false, godMode := false,
    dinoX := 40, dinoY := 220, dinoVy := 0, dinoGrounded := true,
    obstacles := [], groundY := 260, rng := fun _ => 1/2, rngIdx := 0 }

/-- Running, unpaused state obtained by resetGame followed by the public
setSpeed with the finite value 1000000. -/
def c1Base : GameState := setSpeed (JsNumber.finite 1000000) (resetGame cInit)

/-- State right after the buffer-maintenance step of the next tick. -/
def c1Mid : GameState :=
  bufferMaintain (dinoUpdate { c1Base with frame := c1Base.frame + 1 })

/-- Counterexample to C1 as stated: from a reachable Running, unpaused
state (restart, then setSpeed 1000000), the very next tick's
buffer-maintenance step completes with zero obstacles ahead of the runner,
strictly fewer than the required
BASE_OBSTACLE_BUFFER + computeExtraObstacles(gameSpeed) +
INITIAL_EXTRA_OBSTACLES = 18. -/
theorem C1_buffer_invariant_counterexample :
    c1Base.running = true ∧ c1Base.isPaused = false ∧
    aheadCount c1Mid = 0 ∧
    desiredBuffer (dinoUpdate { c1Base with frame := c1Base.frame + 1 }).gameSpeed = 18 ∧
    (aheadCount c1Mid : ℤ) <
      desiredBuffer (dinoUpdate { c1Base with frame := c1Base.frame + 1 }).gameSpeed := by
  refine ⟨by with_unfolding_all decide, by with_unfolding_all decide,
    by with_unfolding_all decide, by with_unfolding_all decide,
    by with_unfolding_all decide⟩

theorem cInit_reset_rngOK : rngOK (resetGame cInit).rng := by
  rw [resetGame_rng]
  exact fun n => ⟨by norm_num [cInit], by norm_num [cInit]⟩

/-- Witness for the amended C1 on the state right after a restart. -/
theorem C1_buffer_invariant_amended_witness :
    (rngOK (resetGame cInit).rng ∧ (resetGame cInit).running = true ∧
      (resetGame cInit).isPaused = false ∧
      lastAhead (dinoUpdate { resetGame cInit with frame := (resetGame cInit).frame + 1 })) ∧
    desiredBuffer (dinoUpdate { resetGame cInit with frame := (resetGame cInit).frame + 1 }).gameSpeed ≤
      (aheadCount (bufferMaintain (dinoUpdate
        { resetGame cInit with frame := (resetGame cInit).frame + 1 })) : ℤ) :=
  ⟨⟨cInit_reset_rngOK,
    by with_unfolding_all decide, by with_unfolding_all decide,
    by with_unfolding_all decide⟩,
   C1_buffer_invariant_amended (resetGame cInit)
     cInit_reset_rngOK
     (by with_unfolding_all decide) (by with_unfolding_all decide)
     (by with_unfolding_all decide)⟩

/-- Spacing predicate: along the list, each obstacle lies at least `d`
beyond its predecessor.  (Kept irreducible so that goals mentioning it are
never whnf-expanded through large list terms.) -/
@[irreducible] def spacedBy (d : ℚ) (l : List Obstacle) : Prop :=
  l.Chain' (fun a b => a.worldX + d ≤ b.worldX)

theorem spacedBy_iff (d : ℚ) (l : List Obstacle) :
    spacedBy d l ↔ l.Chain' (fun a b => a.worldX + d ≤ b.worldX) := by
  with_unfolding_all rfl

/-- Upper bound on the list's last obstacle (the population cursor
dominates everything already placed). -/
def lastWorldXLe (l : List Obstacle) (c : ℚ) : Prop :=
  ∀ o ∈ l.getLast?, o.worldX ≤ c

theorem popStep1_spec (s : GameState) (c X : ℚ) (hr : rngOK s.rng) (hXc : X ≤ c)
    (hall : ∀ o ∈ s.obstacles, X < o.worldX) (hlast : lastWorldXLe s.obstacles c)
    (hsp : spacedBy 120 s.obstacles) :
    (∀ o ∈ (popStep1 s c).1.obstacles, X < o.worldX) ∧
    lastWorldXLe (popStep1 s c).1.obstacles (popStep1 s c).2 ∧
    c + 140 ≤ (popStep1 s c).2 ∧
    spacedBy 120 (popStep1 s c).1.obstacles ∧
    (popStep1 s c).1.obstacles.length = s.obstacles.length + 1 := by
  have hgap := computeGap_lower s.gameSpeed (s.rng s.rngIdx)
  obtain ⟨h0, _⟩ := hr (s.rngIdx + 1)
  have hj : (0 : ℚ) ≤ ((⌊s.rng (s.rngIdx + 1) * 40⌋ : ℤ) : ℚ) :=
    floorq_cast_nonneg _ (by positivity)
  unfold popStep1
  dsimp only
  unfold GAP_MIN at hgap
  set c2 := c + computeGapForSpeed s.gameSpeed (s.rng s.rngIdx) +
    ((⌊s.rng (s.rngIdx + 1) * 40⌋ : ℤ) : ℚ) - 20 with hc2
  have hcc2 : c + 140 ≤ c2 := by rw [hc2]; linarith
  refine ⟨?_, ?_, hcc2, ?_, by simp⟩
  · intro o ho
    rcases List.mem_append.mp ho with h | h
    · exact hall o h
    · rcases List.mem_singleton.mp h with rfl
      show X < c2
      linarith
  · intro o ho
    rw [List.getLast?_concat] at ho
    rcases Option.mem_some_iff.mp ho with rfl
    show (c2 : ℚ) ≤ c2
    linarith
  · rw [spacedBy_iff] at hsp ⊢
    rw [List.chain'_append]
    refine ⟨hsp, List.chain'_singleton _, fun x hx y hy => ?_⟩
    have hy2 : mkObstacle c2 s.groundY (s.rng (s.rngIdx + 2)) (s.rng (s.rngIdx + 3))
        (s.rng (s.rngIdx + 4)) = y := by
      simpa using hy
    subst hy2
    have hxc : x.worldX ≤ c := hlast x hx
    show x.worldX + 120 ≤ c2
    linarith

theorem popStep2_spec (s : GameState) (c X : ℚ) (hr : rngOK s.rng) (hXc : X ≤ c)
    (hall : ∀ o ∈ s.obstacles, X < o.worldX) (hlast : lastWorldXLe s.obstacles c)
    (hsp : spacedBy 120 s.obstacles) :
    (∀ o ∈ (popStep2 s c).1.obstacles, X < o.worldX) ∧
    lastWorldXLe (popStep2 s c).1.obstacles (popStep2 s c).2 ∧
    c + 140 ≤ (popStep2 s c).2 ∧
    spacedBy 120 (popStep2 s c).1.obstacles ∧
    (popStep2 s c).1.obstacles.length = s.obstacles.length + 1 := by
  have hgap := computeGap_lower s.gameSpeed (s.rng s.rngIdx)
  obtain ⟨h0, _⟩ := hr (s.rngIdx + 1)
  have hj : (0 : ℚ) ≤ ((⌊s.rng (s.rngIdx + 1) * 300⌋ : ℤ) : ℚ) :=
    floorq_cast_nonneg _ (by positivity)
  unfold popStep2
  dsimp only
  unfold GAP_MIN at hgap
  set c2 := c + (computeGapForSpeed s.gameSpeed (s.rng s.rngIdx) + 200 +
    ((⌊s.rng (s.rngIdx + 1) * 300⌋ : ℤ) : ℚ)) with hc2
  have hcc2 : c + 140 ≤ c2 := by rw [hc2]; linarith
  refine ⟨?_, ?_, hcc2, ?_, by simp⟩
  · intro o ho
    rcases List.mem_append.mp ho with h | h
    · exact hall o h
    · rcases List.mem_singleton.mp h with rfl
      show X < c2
      linarith
  · intro o ho
    rw [List.getLast?_concat] at ho
    rcases Option.mem_some_iff.mp ho with rfl
    show (c2 : ℚ) ≤ c2
    linarith
  · rw [spacedBy_iff] at hsp ⊢
    rw [List.chain'_append]
    refine ⟨hsp, List.chain'_singleton _, fun x hx y hy => ?_⟩
    have hy2 : mkObstacle c2 s.groundY (s.rng (s.rngIdx + 2)) (s.rng (s.rngIdx + 3))
        (s.rng (s.rngIdx + 4)) = y := by
      simpa using hy
    subst hy2
    have hxc : x.worldX ≤ c := hlast x hx
    show x.worldX + 120 ≤ c2
    linarith

theorem popLoop1_spec (X : ℚ) (n : ℕ) : ∀ (s : GameState) (c : ℚ), rngOK s.rng → X ≤ c →
    (∀ o ∈ s.obstacles, X < o.worldX) → lastWorldXLe s.obstacles c → spacedBy 120 s.obstacles →
    (∀ o ∈ (popLoop1 n s c).1.obstacles, X < o.worldX) ∧
    lastWorldXLe (popLoop1 n s c).1.obstacles (popLoop1 n s c).2 ∧
    c ≤ (popLoop1 n s c).2 ∧
    spacedBy 120 (popLoop1 n s c).1.obstacles ∧
    (popLoop1 n s c).1.obstacles.length = s.obstacles.length + n := by
  induction n with
  | zero => exact fun s c _ _ hall hlast hsp => ⟨hall, hlast, le_refl c, hsp, rfl⟩
  | succ n ih =>
    intro s c hr hXc hall hlast hsp
    have hun : popLoop1 (n + 1) s c = popLoop1 n (popStep1 s c).1 (popStep1 s c).2 := rfl
    rw [hun]
    obtain ⟨hall1, hlast1, hc1, hsp1, hlen1⟩ := popStep1_spec s c X hr hXc hall hlast hsp
    have hr1 : rngOK (popStep1 s c).1.rng := hr
    have hXc1 : X ≤ (popStep1 s c).2 := by linarith
    obtain ⟨hall2, hlast2, hc2, hsp2, hlen2⟩ :=
      ih (popStep1 s c).1 (popStep1 s c).2 hr1 hXc1 hall1 hlast1 hsp1
    exact ⟨hall2, hlast2, by linarith, hsp2, by rw [hlen2, hlen1]; omega⟩

theorem popLoop2_spec (X : ℚ) (n : ℕ) : ∀ (s : GameState) (c : ℚ), rngOK s.rng → X ≤ c →
    (∀ o ∈ s.obstacles, X < o.worldX) → lastWorldXLe s.obstacles c → spacedBy 120 s.obstacles →
    (∀ o ∈ (popLoop2 n s c).1.obstacles, X < o.worldX) ∧
    lastWorldXLe (popLoop2 n s c).1.obstacles (popLoop2 n s c).2 ∧
    c ≤ (popLoop2 n s c).2 ∧
    spacedBy 120 (popLoop2 n s c).1.obstacles ∧
    (popLoop2 n s c).1.obstacles.length = s.obstacles.length + n := by
  induction n with
  | zero => exact fun s c _ _ hall hlast hsp => ⟨hall, hlast, le_refl c, hsp, rfl⟩
  | succ n ih =>
    intro s c hr hXc hall hlast hsp
    have hun : popLoop2 (n + 1) s c = popLoop2 n (popStep2 s c).1 (popStep2 s c).2 := rfl
    rw [hun]
    obtain ⟨hall1, hlast1, hc1, hsp1, hlen1⟩ := popStep2_spec s c X hr hXc hall hlast hsp
    have hr1 : rngOK (popStep2 s c).1.rng := hr
    have hXc1 : X ≤ (popStep2 s c).2 := by linarith
    obtain ⟨hall2, hlast2, hc2, hsp2, hlen2⟩ :=
      ih (popStep2 s c).1 (popStep2 s c).2 hr1 hXc1 hall1 hlast1 hsp1
    exact ⟨hall2, hlast2, by linarith, hsp2, by rw [hlen2, hlen1]; omega⟩

/-- Everything the initial population guarantees: all 22 obstacles lie
strictly ahead of the dino, spaced at least 120 apart. -/
theorem populate_spec (s : GameState) (hr : rngOK s.rng) :
    (∀ o ∈ (populateInitialObstacles s).obstacles, s.dinoX < o.worldX) ∧
    spacedBy 120 (populateInitialObstacles s).obstacles ∧
    (populateInitialObstacles s).obstacles.length = 22 := by
  obtain ⟨p1, hp1⟩ : ∃ p, p = popLoop1 16 { s with obstacles := [] } (s.dinoX + 150) :=
    ⟨_, rfl⟩
  obtain ⟨p2, hp2⟩ : ∃ p, p = popLoop2 6 p1.1 p1.2 := ⟨_, rfl⟩
  have hpe : populateInitialObstacles s = p2.1 := by
    rw [hp2, hp1]
    rfl
  have hr0 : rngOK ({ s with obstacles := [] } : GameState).rng := hr
  have h1 := popLoop1_spec s.dinoX 16 { s with obstacles := [] } (s.dinoX + 150) hr0
    (by linarith) (by intro o ho; simp at ho) (by intro o ho; simp at ho)
    ((spacedBy_iff 120 []).mpr List.chain'_nil)
  rw [← hp1] at h1
  obtain ⟨hall1, hlast1, hc1, hsp1, hlen1⟩ := h1
  have hr1 : rngOK p1.1.rng := by
    obtain ⟨l, i, c2, hsh⟩ := popLoop1_shape 16 { s with obstacles := [] } (s.dinoX + 150)
    rw [hp1, hsh]
    exact hr
  have hXc1 : s.dinoX ≤ p1.2 := by linarith
  have h2 := popLoop2_spec s.dinoX 6 p1.1 p1.2 hr1 hXc1 hall1 hlast1 hsp1
  rw [← hp2] at h2
  obtain ⟨hall2, hlast2, hc2, hsp2, hlen2⟩ := h2
  rw [hpe]
  refine ⟨hall2, hsp2, ?_⟩
  rw [hlen2, hlen1]
  rfl

theorem recalcLayout_aheadCount (s : GameState) :
    aheadCount (recalcLayout s) = aheadCount s := by
  unfold aheadCount recalcLayout
  dsimp only
  rw [List.filter_map, List.length_map]
  rfl

theorem resetGame_fields (s : GameState) :
    (resetGame s).score = 0 ∧ (resetGame s).gameSpeed = baseSpeed ∧
    (resetGame s).running = true ∧ (resetGame s).isPaused = false ∧
    (resetGame s).godMode = false ∧
    (resetGame s).dinoX = 40 ∧ (resetGame s).dinoY = s.groundY - dinoH ∧
    (resetGame s).dinoVy = 0 ∧ (resetGame s).dinoGrounded = true := by
  obtain ⟨l, i, hsh⟩ := populate_shape (dinoReset (preReset s))
  have hre : resetGame s =
      recalcLayout (populateInitialObstacles (dinoReset (preReset s))) := rfl
  rw [hre, hsh]
  unfold recalcLayout dinoReset preReset
  dsimp only
  refine ⟨rfl, rfl, rfl, rfl, rfl, rfl, ?_, rfl, rfl⟩
  exact min_self _

theorem resetGame_aheadCount (s : GameState) (hr : rngOK s.rng) :
    aheadCount (resetGame s) = 22 := by
  have hrr : rngOK (dinoReset (preReset s)).rng := hr
  obtain ⟨hall, hsp, hlen⟩ := populate_spec (dinoReset (preReset s)) hrr
  have hre : resetGame s =
      recalcLayout (populateInitialObstacles (dinoReset (preReset s))) := rfl
  rw [hre, recalcLayout_aheadCount]
  unfold aheadCount
  rw [List.filter_eq_self.mpr, hlen]
  intro o ho
  exact decide_eq_true (hall o ho)

/-- C6: restart from any state resets score to 0, speed to the baseline,
the runner to x = 40 grounded at ground level with zero vertical velocity,
and repopulates the obstacles so that the buffer invariant holds before
the next tick runs (22 obstacles ahead, required at most 18). -/
theorem C6_restart_resets (s : GameState) (hr : rngOK s.rng) :
    (resetGame s).score = 0 ∧
    (resetGame s).gameSpeed = baseSpeed ∧
    (resetGame s).running = true ∧
    (resetGame s).dinoX = 40 ∧
    (resetGame s).dinoY = s.groundY - dinoH ∧
    (resetGame s).dinoVy = 0 ∧
    (resetGame s).dinoGrounded = true ∧
    desiredBuffer (resetGame s).gameSpeed ≤ (aheadCount (resetGame s) : ℤ) := by
  obtain ⟨h1, h2, h3, h4, h5, h6, h7, h8, h9⟩ := resetGame_fields s
  refine ⟨h1, h2, h3, h6, h7, h8, h9, ?_⟩
  rw [resetGame_aheadCount s hr, h2]
  have hdb : desiredBuffer baseSpeed = 10 := by with_unfolding_all decide
  rw [hdb]
  norm_num

/-- Witness for C6 at a concrete state. -/
theorem C6_restart_resets_witness :
    rngOK sampleState.rng ∧
    ((resetGame sampleState).score = 0 ∧
     (resetGame sampleState).gameSpeed = baseSpeed ∧
     (resetGame sampleState).running = true ∧
     (resetGame sampleState).dinoX = 40 ∧
     (resetGame sampleState).dinoY = sampleState.groundY - dinoH ∧
     (resetGame sampleState).dinoVy = 0 ∧
     (resetGame sampleState).dinoGrounded = true ∧
     desiredBuffer (resetGame sampleState).gameSpeed ≤ (aheadCount (resetGame sampleState) : ℤ)) :=
  ⟨fun n => ⟨by norm_num [sampleState], by norm_num [sampleState]⟩,
   C6_restart_resets sampleState
     (fun n => ⟨by norm_num [sampleState], by norm_num [sampleState]⟩)⟩

theorem gen_spaced (s : GameState) (hr : rngOK s.rng) (hsp : spacedBy 120 s.obstacles) :
    spacedBy 120 (generateNextObstacle s).obstacles := by
  show spacedBy 120 (s.obstacles ++ [newOb s])
  rw [spacedBy_iff] at hsp ⊢
  rw [List.chain'_append]
  refine ⟨hsp, List.chain'_singleton _, fun x hx y hy => ?_⟩
  have hy2 : newOb s = y := by simpa using hy
  subst hy2
  rw [Option.mem_def] at hx
  have h120 := genNextX_lower s hr
  have hgl : genLastX s = x.worldX := by
    unfold genLastX
    rw [hx]
    rfl
  rw [hgl] at h120
  exact h120

/-- C2 (amended): for generator-produced sequences, adjacent obstacles are
spaced at least GAP_MIN - 40 = 120 apart (not the claimed GAP_MIN = 160):
the initial population establishes 120-spacing, each generateNext step
preserves it, each generateNext places its obstacle strictly beyond the
previous one, and 120-spacing implies strictly increasing x-values. -/
theorem C2_generator_spacing_amended :
    (∀ s : GameState, rngOK s.rng →
      spacedBy 120 (populateInitialObstacles s).obstacles) ∧
    (∀ s : GameState, rngOK s.rng → spacedBy 120 s.obstacles →
      spacedBy 120 (generateNextObstacle s).obstacles) ∧
    (∀ s : GameState, rngOK s.rng → genLastX s < genNextX s) ∧
    (∀ l : List Obstacle, spacedBy 120 l →
      l.Chain' (fun a b => a.worldX < b.worldX)) := by
  constructor
  · intro s hr
    have h := populate_spec s hr
    obtain ⟨h1, h2, h3⟩ := h
    exact h2
  constructor
  · exact gen_spaced
  constructor
  · intro s hr
    have := genNextX_lower s hr
    linarith
  · intro l hsp
    rw [spacedBy_iff] at hsp
    exact List.Chain'.imp (fun a b h => by linarith) hsp

theorem sampleState_rngOK : rngOK sampleState.rng :=
  fun n => ⟨by norm_num [sampleState], by norm_num [sampleState]⟩

/-- Witness for the amended C2 at a concrete state. -/
theorem C2_generator_spacing_amended_witness :
    rngOK sampleState.rng ∧
    spacedBy 120 (populateInitialObstacles sampleState).obstacles ∧
    genLastX sampleState < genNextX sampleState := by
  obtain ⟨h1, h2, h3, h4⟩ := C2_generator_spacing_amended
  exact ⟨sampleState_rngOK, h1 sampleState sampleState_rngOK,
    h3 sampleState sampleState_rngOK⟩

/-- Initial state for the C2 counterexample: draws of 1/2 during the
initial population (110 draws), 0 afterwards. -/
def c2Init : GameState :=
  { cInit with rng := fun n => if n < 110 then 1/2 else 0 }

/-- Generator-produced sequence for the counterexample: the initial
population (22 obstacles) followed by one generateNext step at the current
speed, after the public setSpeed 1000000. -/
def c2Seq : GameState :=
  generateNextObstacle (setSpeed (JsNumber.finite 1000000) (resetGame c2Init))

/-- Executable scan: some adjacent pair of the list is closer than `d`. -/
def hasCloseAdjacent (d : ℚ) : List Obstacle → Bool
  | [] => false
  | [_] => false
  | a :: b :: t => decide (b.worldX - a.worldX < d) || hasCloseAdjacent d (b :: t)

theorem hasCloseAdjacent_not_chain (d : ℚ) :
    ∀ l : List Obstacle, hasCloseAdjacent d l = true →
      ¬ l.Chain' (fun a b => a.worldX + d ≤ b.worldX) := by
  intro l
  induction l with
  | nil => intro h; simp [hasCloseAdjacent] at h
  | cons a t ih =>
    cases t with
    | nil => intro h; simp [hasCloseAdjacent] at h
    | cons b t2 =>
      intro h hch
      rw [List.chain'_cons] at hch
      simp only [hasCloseAdjacent, Bool.or_eq_true, decide_eq_true_eq] at h
      rcases h with h | h
      · linarith [hch.1]
      · exact ih h hch.2

/-- Counterexample to C2 as stated: a generator-produced sequence (initial
population, then one generateNext step after setSpeed 1000000) contains an
adjacent pair whose difference is below GAP_MIN — the generated obstacle
lands at 13410, only 120 beyond the last populated obstacle at 13290 — so
not every adjacent pair satisfies nextX - prevX >= GAP_MIN. -/
theorem C2_spacing_counterexample :
    c2Seq.obstacles.length = 23 ∧
    hasCloseAdjacent GAP_MIN c2Seq.obstacles = true ∧
    ¬ c2Seq.obstacles.Chain' (fun a b => a.worldX + GAP_MIN ≤ b.worldX) := by
  have h1 : hasCloseAdjacent GAP_MIN c2Seq.obstacles = true := by
    with_unfolding_all decide
  exact ⟨by with_unfolding_all decide, h1,
    hasCloseAdjacent_not_chain GAP_MIN _ h1⟩

end Dino
